import Mathlib

/-!
Shallow embedding of the accounting-bot ledger core (src/db.py) and proofs
of the specification claims about it.

Modelling conventions:
* SQLite tables become Lean lists; the `orders` table is an association list
  keyed by order id, `line_items` and `participants` are plain row lists.
* Python `ValueError` raise sites become constructors of `Err`; fallible
  operations return `Except Err DB`.  A raised exception rolls the
  transaction back, so an `.error` result carries no state: the caller's
  state is unchanged.
* Python floats (the discount value) are modelled as exact rationals; the
  builtin `round` becomes `pythonRound`, round-half-to-even on rationals.
* `now_iso()` timestamps become an abstract natural-number clock `DB.now`.
-/

namespace AccountingBot

/-- Error taxonomy: one constructor per distinct `raise ValueError` site
class in src/db.py. -/
inductive Err where
  | orderNotFound
  | orderNotEditable
  | alreadyCancelled
  | notAuthorized
  | noSuchParticipant
  | invalidDiscount
  | invalidQty
  | invalidPrice
deriving DecidableEq, Repr

/-- A row of the `orders` table (without the id, which is the assoc key). -/
structure Order where
  created_at : Nat
  vendor : String
  note : String
  creator_id : String
  payer_id : String
  discount_type : String
  discount_value : ℚ
  adjustment : Int
  status : String
deriving DecidableEq, Repr

/-- A row of the `line_items` table. -/
structure LineItem where
  item_id : Nat
  order_id : Nat
  user_id : String
  name : String
  unit_price : Nat
  qty : Nat
  note : String
  created_at : Nat
  created_by : String
deriving DecidableEq, Repr

/-- A row of the `participants` table. -/
@[ext] structure Participant where
  order_id : Nat
  user_id : String
  total_due : Int
  paid : Bool
  paid_at : Option Nat
  paid_to : Option String
deriving DecidableEq, Repr

/-- The whole durable store plus the id generators and the clock. -/
@[ext] structure DB where
  orders : List (Nat × Order)
  line_items : List LineItem
  participants : List Participant
  next_order_id : Nat
  next_item_id : Nat
  now : Nat
deriving DecidableEq, Repr

def initDB : DB := ⟨[], [], [], 1, 1, 0⟩

/-- `SELECT * FROM orders WHERE order_id=?`. -/
def lookupOrder (db : DB) (oid : Nat) : Option Order :=
  (db.orders.find? (fun e => e.1 == oid)).map (·.2)

/-- `UPDATE orders SET ... WHERE order_id=?`. -/
def updateOrder (db : DB) (oid : Nat) (f : Order → Order) : DB :=
  { db with orders := db.orders.map (fun e => if e.1 = oid then (e.1, f e.2) else e) }

/-- Python `round` on an exact rational: round half to even. -/
def pythonRound (q : ℚ) : Int :=
  if q - ⌊q⌋ = 1/2 then (if ⌊q⌋ % 2 = 0 then ⌊q⌋ else ⌊q⌋ + 1) else round q

/-- The inner `calc_total` of `recalc_order_conn` (db.py lines 431-441),
applied to a subtotal. -/
def calc_total (discount_type : String) (discount_value : ℚ) (subtotal : Int) : Int :=
  if discount_type = "none" then subtotal
  else if discount_type = "percent" then pythonRound ((subtotal : ℚ) * discount_value)
  else if discount_type = "amount" then subtotal
  else subtotal

/-- `SELECT SUM(unit_price * qty) FROM line_items WHERE order_id=? AND user_id=?`. -/
def subtotal (db : DB) (oid : Nat) (u : String) : Nat :=
  ((db.line_items.filter (fun li => li.order_id == oid && li.user_id == u)).map
    (fun li => li.unit_price * li.qty)).sum

/-- `SELECT DISTINCT user_id FROM line_items WHERE order_id=?`. -/
def itemUsers (db : DB) (oid : Nat) : List String :=
  ((db.line_items.filter (fun li => li.order_id == oid)).map (·.user_id)).dedup

/-- `max(0, calc_total(subtotal) + adjustment)` (db.py line 445). -/
def dueFor (db : DB) (o : Order) (oid : Nat) (u : String) : Int :=
  max 0 (calc_total o.discount_type o.discount_value (subtotal db oid u) + o.adjustment)

/-- Effect of the upsert/delete loop on one existing participant row:
rows of other orders are untouched, rows of item-owning users get a fresh
`total_due` (payment fields preserved), rows of users with no items are
deleted (db.py lines 443-469). -/
def keptRow (db : DB) (o : Order) (oid : Nat) (p : Participant) : Option Participant :=
  if p.order_id = oid then
    (if p.user_id ∈ itemUsers db oid then
      some { p with total_due := dueFor db o oid p.user_id }
    else none)
  else some p

/-- The row inserted for an item-owning user with no prior participant row:
unpaid, no timestamp, no payee (db.py line 452). -/
def freshRow (db : DB) (o : Order) (oid : Nat) (u : String) : Participant :=
  { order_id := oid, user_id := u, total_due := dueFor db o oid u,
    paid := false, paid_at := none, paid_to := none }

/-- Users that currently have a participant row in the order. -/
def haveRowUsers (db : DB) (oid : Nat) : List String :=
  (db.participants.filter (fun p => p.order_id == oid)).map (·.user_id)

/-- The participant-table rewrite performed by `recalc_order_conn` on a
non-cancelled order: upsert a row per item-owning user (preserving payment
fields of existing rows, inserting unpaid defaults otherwise) and delete
rows of users owning no items (db.py lines 443-469). -/
def applyRecalc (db : DB) (oid : Nat) (o : Order) : DB :=
  { db with participants :=
      (db.participants.filterMap (keptRow db o oid)
        ++ ((itemUsers db oid).filter (fun u => !(haveRowUsers db oid).contains u)).map
             (freshRow db o oid)) }

/-- `recalc_order_conn` (db.py lines 394-469). -/
def recalc_order_conn (db : DB) (oid : Nat) : Except Err DB :=
  match lookupOrder db oid with
  | none => .error .orderNotFound
  | some o =>
    if o.status = "cancelled" then .ok db
    else .ok (applyRecalc db oid o)

/-- `_ensure_order_editable` (db.py lines 473-481). -/
def ensure_order_editable (db : DB) (oid : Nat) : Except Err Unit :=
  match lookupOrder db oid with
  | none => .error .orderNotFound
  | some o =>
    if o.status = "locked" ∨ o.status = "cancelled" then .error .orderNotEditable
    else .ok ()

/-- `create_order` (db.py lines 41-64); returns the new state and the id.
An empty payer string is falsy in Python and also defaults to the creator. -/
def create_order (db : DB) (vendor : String) (creator_id : String)
    (payer_id : Option String) (note : String) : DB × Nat :=
  let payer := match payer_id with
    | none => creator_id
    | some p => if p = "" then creator_id else p
  let o : Order :=
    { created_at := db.now, vendor := vendor, note := note, creator_id := creator_id,
      payer_id := payer, discount_type := "none", discount_value := 0,
      adjustment := 0, status := "open" }
  ({ db with orders := db.orders ++ [(db.next_order_id, o)],
             next_order_id := db.next_order_id + 1 }, db.next_order_id)

/-- The `line_items` row inserted by `add_item` (db.py lines 90-96). -/
def newItem (db : DB) (oid : Nat) (user_id name : String) (unit_price qty : Int)
    (note cb : String) : LineItem :=
  { item_id := db.next_item_id, order_id := oid, user_id := user_id, name := name,
    unit_price := unit_price.toNat, qty := qty.toNat, note := note,
    created_at := db.now, created_by := cb }

/-- State after inserting one line-item row. -/
def withItem (db : DB) (li : LineItem) : DB :=
  { db with line_items := db.line_items ++ [li], next_item_id := db.next_item_id + 1 }

/-- `add_item` (db.py lines 67-103); returns the new state and the item id. -/
def add_item (db : DB) (oid : Nat) (user_id : String) (name : String)
    (unit_price : Int) (qty : Int) (note : String) (created_by : Option String) :
    Except Err (DB × Nat) :=
  let cb := created_by.getD user_id
  if qty ≤ 0 then .error .invalidQty
  else if unit_price < 0 then .error .invalidPrice
  else match ensure_order_editable db oid with
  | .error e => .error e
  | .ok _ =>
    let db1 := withItem db (newItem db oid user_id name unit_price qty note cb)
    match recalc_order_conn db1 oid with
    | .error e => .error e
    | .ok db2 => .ok (db2, db.next_item_id)

/-- `set_discount_percent` (db.py lines 106-126). -/
def set_discount_percent (db : DB) (oid : Nat) (percent : ℚ) : Except Err DB :=
  if ¬ (0 ≤ percent ∧ percent ≤ 1) then .error .invalidDiscount
  else match ensure_order_editable db oid with
  | .error e => .error e
  | .ok _ =>
    recalc_order_conn
      (updateOrder db oid (fun o => { o with discount_type := "percent",
                                             discount_value := percent })) oid

/-- `set_adjustment` (db.py lines 128-148).  Note: unlike
`set_discount_percent`, it performs no editability check — it rejects only
cancelled orders and non-creator actors. -/
def set_adjustment (db : DB) (oid : Nat) (adjustment : Int) (actor_id : String) :
    Except Err DB :=
  match lookupOrder db oid with
  | none => .error .orderNotFound
  | some o =>
    if o.status = "cancelled" then .error .alreadyCancelled
    else if o.creator_id ≠ actor_id then .error .notAuthorized
    else recalc_order_conn (updateOrder db oid (fun o => { o with adjustment := adjustment })) oid

/-- `cancel_order` (db.py lines 151-165). -/
def cancel_order (db : DB) (oid : Nat) (actor_id : String) : Except Err DB :=
  match lookupOrder db oid with
  | none => .error .orderNotFound
  | some o =>
    if o.status = "cancelled" then .error .alreadyCancelled
    else if o.creator_id ≠ actor_id then .error .notAuthorized
    else .ok (updateOrder db oid (fun o => { o with status := "cancelled" }))

/-- `lock_order` (db.py lines 491-502). -/
def lock_order (db : DB) (oid : Nat) (actor_id : String) : Except Err DB :=
  match lookupOrder db oid with
  | none => .error .orderNotFound
  | some o =>
    if o.status = "cancelled" then .error .alreadyCancelled
    else if o.creator_id ≠ actor_id then .error .notAuthorized
    else .ok (updateOrder db oid (fun o => { o with status := "locked" }))

/-- `unlock_order` (db.py lines 505-516). -/
def unlock_order (db : DB) (oid : Nat) (actor_id : String) : Except Err DB :=
  match lookupOrder db oid with
  | none => .error .orderNotFound
  | some o =>
    if o.status = "cancelled" then .error .alreadyCancelled
    else if o.creator_id ≠ actor_id then .error .notAuthorized
    else .ok (updateOrder db oid (fun o => { o with status := "open" }))

/-- `UPDATE participants SET paid=1, paid_at=?, paid_to=? WHERE order_id=?
AND user_id=?` at the current clock (db.py lines 194-201). -/
def paidUpdate (db : DB) (oid : Nat) (user_id : String) (pt : String) : DB :=
  { db with participants := db.participants.map (fun p =>
      if p.order_id = oid ∧ p.user_id = user_id then
        { p with paid := true, paid_at := some db.now, paid_to := some pt }
      else p) }

/-- `mark_paid` (db.py lines 168-202): recalc first (creating any missing
participant rows on a live order), then update the payment fields of the
target row, defaulting `paid_to` to the order's payer. -/
def mark_paid (db : DB) (oid : Nat) (user_id : String) (paid_to : Option String) :
    Except Err DB :=
  match recalc_order_conn db oid with
  | .error e => .error e
  | .ok db1 =>
    match lookupOrder db1 oid with
    | none => .error .orderNotFound
    | some o =>
      let pt := paid_to.getD o.payer_id
      if db1.participants.any (fun p => p.order_id == oid && p.user_id == user_id) then
        .ok (paidUpdate db1 oid user_id pt)
      else .error .noSuchParticipant

/-- One committed public mutation of the store (errors roll back, hence
leave the state unchanged and need no step). -/
inductive Step : DB → DB → Prop where
  | create (db : DB) (vendor creator_id note : String) (payer_id : Option String) :
      Step db (create_order db vendor creator_id payer_id note).1
  | add (db db' : DB) (oid : Nat) (u name : String) (price qty : Int) (note : String)
      (cb : Option String) (id : Nat) (h : add_item db oid u name price qty note cb = .ok (db', id)) :
      Step db db'
  | discount (db db' : DB) (oid : Nat) (pct : ℚ) (h : set_discount_percent db oid pct = .ok db') :
      Step db db'
  | adjust (db db' : DB) (oid : Nat) (a : Int) (actor : String)
      (h : set_adjustment db oid a actor = .ok db') : Step db db'
  | lock (db db' : DB) (oid : Nat) (actor : String) (h : lock_order db oid actor = .ok db') :
      Step db db'
  | unlock (db db' : DB) (oid : Nat) (actor : String) (h : unlock_order db oid actor = .ok db') :
      Step db db'
  | cancel (db db' : DB) (oid : Nat) (actor : String) (h : cancel_order db oid actor = .ok db') :
      Step db db'
  | pay (db db' : DB) (oid : Nat) (u : String) (pt : Option String)
      (h : mark_paid db oid u pt = .ok db') : Step db db'
  | recalc (db db' : DB) (oid : Nat) (h : recalc_order_conn db oid = .ok db') : Step db db'
  | tick (db : DB) (t : Nat) : Step db { db with now := t }

/-- States reachable from the empty store through committed operations. -/
def Reachable (db : DB) : Prop := Relation.ReflTransGen Step initDB db

/-- A participant row with key (oid, u) exists. -/
def hasParticipant (db : DB) (oid : Nat) (u : String) : Prop :=
  ∃ p ∈ db.participants, p.order_id = oid ∧ p.user_id = u

/-- The user owns at least one line item in the order. -/
def hasItem (db : DB) (oid : Nat) (u : String) : Prop :=
  ∃ li ∈ db.line_items, li.order_id = oid ∧ li.user_id = u

/-- The row-presence invariant of the spec, over the whole store. -/
def rowPresence (db : DB) : Prop :=
  ∀ oid u, hasParticipant db oid u ↔ hasItem db oid u

def isOk : Except Err DB → Bool
  | .ok _ => true
  | .error _ => false

/-- Unwrap a successful state transition, keeping the old state on error. -/
def okState (db : DB) (r : Except Err DB) : DB :=
  match r with
  | .ok db2 => db2
  | .error _ => db

/-- Unwrap a successful state/id pair, keeping the old state on error. -/
def okStateId (db : DB) (r : Except Err (DB × Nat)) : DB :=
  match r with
  | .ok x => x.1
  | .error _ => db

/-- Example: single order 1 created by "A" (payer "A"), open, no discount. -/
def exDB0 : DB := (create_order initDB "shop" "A" none "tea run").1

/-- Example: order 1 with items A:(60×1), B:(40×1), B:(10×1). -/
def exDB1 : DB :=
  let a := okStateId exDB0 (add_item exDB0 1 "A" "milk tea" 60 1 "" none)
  let b := okStateId a (add_item a 1 "B" "black tea" 40 1 "" none)
  okStateId b (add_item b 1 "B" "boba" 10 1 "topping" none)

/-- Example: `exDB1` after the creator locks order 1. -/
def exLocked : DB := okState exDB1 (lock_order exDB1 1 "A")

/-- Example: `exDB1` after the creator cancels order 1. -/
def exCancelled : DB := okState exDB1 (cancel_order exDB1 1 "A")

/-- The order record stored for order 1 in `exDB1`. -/
def exOrderOpen : Order :=
  { created_at := 0, vendor := "shop", note := "tea run", creator_id := "A",
    payer_id := "A", discount_type := "none", discount_value := 0,
    adjustment := 0, status := "open" }

/-- The order record stored for order 1 in `exLocked`. -/
def exOrderLocked : Order := { exOrderOpen with status := "locked" }

/-- The order record stored for order 1 in `exCancelled`. -/
def exOrderCancelled : Order := { exOrderOpen with status := "cancelled" }

/-- Example: `exDB1` after user "B" is marked paid. -/
def exPaid : DB := okState exDB1 (mark_paid exDB1 1 "B" none)

/-- Example: `exPaid` after the discount is set to 9/10 (the state the
successful `set_discount_percent` call commits). -/
def exPaidDisc : DB :=
  applyRecalc
    (updateOrder exPaid 1 (fun x => { x with discount_type := "percent",
                                             discount_value := 9/10 })) 1
    { exOrderOpen with discount_type := "percent", discount_value := 9/10 }


theorem applyRecalc_orders (db : DB) (oid : Nat) (o : Order) :
    (applyRecalc db oid o).orders = db.orders := rfl

theorem applyRecalc_line_items (db : DB) (oid : Nat) (o : Order) :
    (applyRecalc db oid o).line_items = db.line_items := rfl

theorem applyRecalc_now (db : DB) (oid : Nat) (o : Order) :
    (applyRecalc db oid o).now = db.now := rfl

theorem lookupOrder_applyRecalc (db : DB) (oid : Nat) (o : Order) (x : Nat) :
    lookupOrder (applyRecalc db oid o) x = lookupOrder db x := rfl

theorem subtotal_applyRecalc (db : DB) (oid : Nat) (o : Order) (oid2 : Nat) (u : String) :
    subtotal (applyRecalc db oid o) oid2 u = subtotal db oid2 u := rfl

theorem itemUsers_applyRecalc (db : DB) (oid : Nat) (o : Order) (oid2 : Nat) :
    itemUsers (applyRecalc db oid o) oid2 = itemUsers db oid2 := rfl

theorem dueFor_applyRecalc (db : DB) (oid : Nat) (o : Order) (o2 : Order) (oid2 : Nat) (u : String) :
    dueFor (applyRecalc db oid o) o2 oid2 u = dueFor db o2 oid2 u := rfl

theorem mem_itemUsers {db : DB} {oid : Nat} {u : String} :
    u ∈ itemUsers db oid ↔ hasItem db oid u := by
  simp only [itemUsers, hasItem, List.mem_dedup, List.mem_map, List.mem_filter,
    Bool.and_eq_true, beq_iff_eq]
  constructor
  · rintro ⟨li, ⟨hmem, hord⟩, hu⟩
    exact ⟨li, hmem, hord, hu⟩
  · rintro ⟨li, hmem, hord, hu⟩
    exact ⟨li, ⟨hmem, hord⟩, hu⟩

theorem mem_haveRowUsers {db : DB} {oid : Nat} {u : String} :
    u ∈ haveRowUsers db oid ↔ hasParticipant db oid u := by
  simp only [haveRowUsers, hasParticipant, List.mem_map, List.mem_filter, beq_iff_eq]
  constructor
  · rintro ⟨p, ⟨hmem, hord⟩, hu⟩
    exact ⟨p, hmem, hord, hu⟩
  · rintro ⟨p, hmem, hord, hu⟩
    exact ⟨p, ⟨hmem, hord⟩, hu⟩

theorem update_total_self (p : Participant) : ({ p with total_due := p.total_due } : Participant) = p := by
  cases p
  rfl

theorem filterMap_id_of_mem {α : Type} (l : List α) (f : α → Option α)
    (h : ∀ x ∈ l, f x = some x) : l.filterMap f = l := by
  induction l with
  | nil => rfl
  | cons a l ih =>
    rw [List.filterMap_cons, h a (List.mem_cons_self a l), ih (fun x hx => h x (List.mem_cons_of_mem a hx))]

theorem keptRow_eq_some {db : DB} {o : Order} {oid : Nat} {p x : Participant} :
    keptRow db o oid p = some x ↔
      (p.order_id ≠ oid ∧ x = p) ∨
      (p.order_id = oid ∧ p.user_id ∈ itemUsers db oid ∧
        x = { p with total_due := dueFor db o oid p.user_id }) := by
  unfold keptRow
  split_ifs with h1 h2 <;> simp_all [eq_comm]

theorem mem_applyRecalc {db : DB} {oid : Nat} {o : Order} {x : Participant} :
    x ∈ (applyRecalc db oid o).participants ↔
      ((∃ p ∈ db.participants,
          (p.order_id ≠ oid ∧ x = p) ∨
          (p.order_id = oid ∧ p.user_id ∈ itemUsers db oid ∧
            x = { p with total_due := dueFor db o oid p.user_id })) ∨
        (∃ u ∈ itemUsers db oid, u ∉ haveRowUsers db oid ∧ x = freshRow db o oid u)) := by
  show x ∈ _ ++ _ ↔ _
  simp only [List.mem_append, List.mem_filterMap, List.mem_map, List.mem_filter,
    keptRow_eq_some, Bool.not_eq_true']
  constructor
  · rintro (⟨p, hp, hcase⟩ | ⟨u, ⟨hu, hnc⟩, rfl⟩)
    · exact Or.inl ⟨p, hp, hcase⟩
    · refine Or.inr ⟨u, hu, ?_, rfl⟩
      intro hmem
      simp only [List.contains, List.elem_eq_mem, decide_eq_false_iff_not] at hnc
      exact hnc hmem
  · rintro (⟨p, hp, hcase⟩ | ⟨u, hu, hnr, rfl⟩)
    · exact Or.inl ⟨p, hp, hcase⟩
    · refine Or.inr ⟨u, ⟨hu, ?_⟩, rfl⟩
      simp only [List.contains, List.elem_eq_mem, decide_eq_false_iff_not]
      exact hnr


theorem hasParticipant_applyRecalc_self {db : DB} {oid : Nat} {o : Order} {u : String} :
    hasParticipant (applyRecalc db oid o) oid u ↔ hasItem db oid u := by
  unfold hasParticipant
  constructor
  · rintro ⟨x, hx, hord, hu⟩
    rcases mem_applyRecalc.mp hx with (⟨p, hp, (⟨hne, rfl⟩ | ⟨heq, hmem, rfl⟩)⟩ | ⟨v, hv, hnr, rfl⟩)
    · exact absurd hord hne
    · exact mem_itemUsers.mp (hu ▸ hmem)
    · exact mem_itemUsers.mp (hu ▸ hv)
  · intro hi
    have hu := mem_itemUsers.mpr hi
    by_cases hr : hasParticipant db oid u
    · obtain ⟨p, hp, hord, hpu⟩ := hr
      refine ⟨{ p with total_due := dueFor db o oid p.user_id }, ?_, hord, hpu⟩
      exact mem_applyRecalc.mpr (Or.inl ⟨p, hp, Or.inr ⟨hord, by rwa [hpu], rfl⟩⟩)
    · refine ⟨freshRow db o oid u, ?_, rfl, rfl⟩
      exact mem_applyRecalc.mpr (Or.inr ⟨u, hu, fun hmem => hr (mem_haveRowUsers.mp hmem), rfl⟩)

theorem hasParticipant_applyRecalc_other {db : DB} {oid : Nat} {o : Order} {oid2 : Nat}
    {u : String} (hne : oid2 ≠ oid) :
    hasParticipant (applyRecalc db oid o) oid2 u ↔ hasParticipant db oid2 u := by
  unfold hasParticipant
  constructor
  · rintro ⟨x, hx, hord, hu⟩
    rcases mem_applyRecalc.mp hx with (⟨p, hp, (⟨hpo, hxp⟩ | ⟨heq, hmem, hxp⟩)⟩ | ⟨v, hv, hnr, hxp⟩)
    · exact ⟨p, hp, by rw [← hxp]; exact hord, by rw [← hxp]; exact hu⟩
    · subst hxp
      exact absurd (hord ▸ heq : oid2 = oid) hne
    · subst hxp
      exact absurd (show oid2 = oid from hord.symm) hne
  · rintro ⟨p, hp, hord, hu⟩
    refine ⟨p, ?_, hord, hu⟩
    refine mem_applyRecalc.mpr (Or.inl ⟨p, hp, Or.inl ⟨?_, rfl⟩⟩)
    rw [hord]
    exact hne

theorem applyRecalc_rows_normal {db : DB} {oid : Nat} {o : Order} :
    ∀ x ∈ (applyRecalc db oid o).participants, x.order_id = oid →
      x.user_id ∈ itemUsers db oid ∧ x.total_due = dueFor db o oid x.user_id := by
  intro x hx hord
  rcases mem_applyRecalc.mp hx with (⟨p, hp, (⟨hne, rfl⟩ | ⟨heq, hmem, rfl⟩)⟩ | ⟨v, hv, hnr, rfl⟩)
  · exact absurd hord hne
  · exact ⟨hmem, rfl⟩
  · exact ⟨hv, rfl⟩

theorem applyRecalc_idem {db : DB} {oid : Nat} {o : Order} :
    applyRecalc (applyRecalc db oid o) oid o = applyRecalc db oid o := by
  have h1 : (applyRecalc db oid o).participants.filterMap (keptRow (applyRecalc db oid o) o oid)
      = (applyRecalc db oid o).participants := by
    apply filterMap_id_of_mem
    intro x hx
    unfold keptRow
    by_cases hord : x.order_id = oid
    · obtain ⟨hmem, htd⟩ := applyRecalc_rows_normal x hx hord
      rw [if_pos hord, if_pos (by simpa [itemUsers_applyRecalc] using hmem)]
      rw [dueFor_applyRecalc, ← htd, update_total_self]
    · rw [if_neg hord]
  have h2 : (itemUsers (applyRecalc db oid o) oid).filter
      (fun u => !(haveRowUsers (applyRecalc db oid o) oid).contains u) = [] := by
    rw [List.filter_eq_nil_iff]
    intro u hu
    have hi : hasItem db oid u := mem_itemUsers.mp (by simpa [itemUsers_applyRecalc] using hu)
    have hp : u ∈ haveRowUsers (applyRecalc db oid o) oid :=
      mem_haveRowUsers.mpr (hasParticipant_applyRecalc_self.mpr hi)
    simp [List.contains, List.elem_eq_mem, hp]
  ext1
  · rfl
  · rfl
  · show (applyRecalc db oid o).participants.filterMap (keptRow (applyRecalc db oid o) o oid)
        ++ ((itemUsers (applyRecalc db oid o) oid).filter
              (fun u => !(haveRowUsers (applyRecalc db oid o) oid).contains u)).map
             (freshRow (applyRecalc db oid o) o oid)
      = (applyRecalc db oid o).participants
    rw [h1, h2, List.map_nil, List.append_nil]
  · rfl
  · rfl
  · rfl

theorem lookupOrder_updateOrder (db : DB) (oid x : Nat) (f : Order → Order) :
    lookupOrder (updateOrder db oid f) x
      = if x = oid then (lookupOrder db oid).map f else lookupOrder db x := by
  unfold lookupOrder updateOrder
  rw [List.find?_map]
  have hpg : ((fun (e : Nat × Order) => e.1 == x) ∘ fun e => if e.1 = oid then (e.1, f e.2) else e)
      = fun e => e.1 == x := by
    funext e
    by_cases he : e.1 = oid <;> simp [he]
  rw [hpg]
  by_cases hx : x = oid
  · subst hx
    rw [if_pos rfl, Option.map_map, Option.map_map]
    apply Option.map_congr
    intro e he
    rw [Option.mem_def] at he
    have hb := List.find?_some he
    have he1 : e.1 = x := by simpa using hb
    simp [Function.comp, he1]
  · rw [if_neg hx, Option.map_map]
    apply Option.map_congr
    intro e he
    rw [Option.mem_def] at he
    have hb := List.find?_some he
    have he1 : e.1 = x := by simpa using hb
    have hne : ¬ (e.1 = oid) := fun h => hx (he1 ▸ h)
    simp [Function.comp, hne]

theorem updateOrder_participants (db : DB) (oid : Nat) (f : Order → Order) :
    (updateOrder db oid f).participants = db.participants := rfl

theorem updateOrder_line_items (db : DB) (oid : Nat) (f : Order → Order) :
    (updateOrder db oid f).line_items = db.line_items := rfl

theorem updateOrder_now (db : DB) (oid : Nat) (f : Order → Order) :
    (updateOrder db oid f).now = db.now := rfl

theorem subtotal_updateOrder (db : DB) (oid : Nat) (f : Order → Order) (oid2 : Nat) (u : String) :
    subtotal (updateOrder db oid f) oid2 u = subtotal db oid2 u := rfl

theorem itemUsers_updateOrder (db : DB) (oid : Nat) (f : Order → Order) (oid2 : Nat) :
    itemUsers (updateOrder db oid f) oid2 = itemUsers db oid2 := rfl


theorem recalc_cancelled {db : DB} {oid : Nat} {o : Order} (hl : lookupOrder db oid = some o)
    (hs : o.status = "cancelled") : recalc_order_conn db oid = .ok db := by
  simp [recalc_order_conn, hl, hs]

theorem recalc_not_cancelled {db : DB} {oid : Nat} {o : Order} (hl : lookupOrder db oid = some o)
    (hs : o.status ≠ "cancelled") :
    recalc_order_conn db oid = .ok (applyRecalc db oid o) := by
  simp [recalc_order_conn, hl, hs]

theorem recalc_ok_inv {db : DB} {oid : Nat} {db' : DB}
    (h : recalc_order_conn db oid = .ok db') :
    ∃ o, lookupOrder db oid = some o ∧
      ((o.status = "cancelled" ∧ db' = db) ∨
       (o.status ≠ "cancelled" ∧ db' = applyRecalc db oid o)) := by
  unfold recalc_order_conn at h
  cases hl : lookupOrder db oid with
  | none => rw [hl] at h; cases h
  | some o =>
    rw [hl] at h
    dsimp only at h
    by_cases hs : o.status = "cancelled"
    · rw [if_pos hs] at h
      injection h with h
      exact ⟨o, rfl, Or.inl ⟨hs, h.symm⟩⟩
    · rw [if_neg hs] at h
      injection h with h
      exact ⟨o, rfl, Or.inr ⟨hs, h.symm⟩⟩

theorem ensure_ok_inv {db : DB} {oid : Nat} (h : ensure_order_editable db oid = .ok ()) :
    ∃ o, lookupOrder db oid = some o ∧ o.status ≠ "locked" ∧ o.status ≠ "cancelled" := by
  unfold ensure_order_editable at h
  cases hl : lookupOrder db oid with
  | none => rw [hl] at h; cases h
  | some o =>
    rw [hl] at h
    dsimp only at h
    by_cases hs : o.status = "locked" ∨ o.status = "cancelled"
    · rw [if_pos hs] at h; cases h
    · push_neg at hs
      exact ⟨o, rfl, hs.1, hs.2⟩

theorem ensure_err_of_not_open {db : DB} {oid : Nat} {o : Order}
    (hl : lookupOrder db oid = some o) (hs : o.status = "locked" ∨ o.status = "cancelled") :
    ensure_order_editable db oid = .error .orderNotEditable := by
  simp [ensure_order_editable, hl, hs]

theorem set_discount_ok_inv {db : DB} {oid : Nat} {pct : ℚ} {db' : DB}
    (h : set_discount_percent db oid pct = .ok db') :
    (0 ≤ pct ∧ pct ≤ 1) ∧
    ∃ o, lookupOrder db oid = some o ∧ o.status ≠ "locked" ∧ o.status ≠ "cancelled" ∧
      db' = applyRecalc
        (updateOrder db oid (fun o => { o with discount_type := "percent",
                                               discount_value := pct })) oid
        { o with discount_type := "percent", discount_value := pct } := by
  unfold set_discount_percent at h
  by_cases hp : 0 ≤ pct ∧ pct ≤ 1
  · rw [if_neg (not_not_intro hp)] at h
    refine ⟨hp, ?_⟩
    cases he : ensure_order_editable db oid with
    | error e => rw [he] at h; cases h
    | ok u =>
      cases u
      rw [he] at h
      dsimp only at h
      obtain ⟨o, hl, hnl, hnc⟩ := ensure_ok_inv he
      refine ⟨o, hl, hnl, hnc, ?_⟩
      have hl2 : lookupOrder
          (updateOrder db oid (fun o => { o with discount_type := "percent",
                                                 discount_value := pct })) oid
          = some { o with discount_type := "percent", discount_value := pct } := by
        rw [lookupOrder_updateOrder, if_pos rfl, hl]
        rfl
      rw [recalc_not_cancelled hl2 hnc] at h
      injection h with h
      exact h.symm
  · rw [if_pos hp] at h; cases h

theorem set_adjustment_ok_inv {db : DB} {oid : Nat} {a : Int} {actor : String} {db' : DB}
    (h : set_adjustment db oid a actor = .ok db') :
    ∃ o, lookupOrder db oid = some o ∧ o.status ≠ "cancelled" ∧ o.creator_id = actor ∧
      db' = applyRecalc (updateOrder db oid (fun o => { o with adjustment := a })) oid
        { o with adjustment := a } := by
  unfold set_adjustment at h
  cases hl : lookupOrder db oid with
  | none => rw [hl] at h; cases h
  | some o =>
    rw [hl] at h
    dsimp only at h
    by_cases hs : o.status = "cancelled"
    · rw [if_pos hs] at h; cases h
    · rw [if_neg hs] at h
      by_cases hc : o.creator_id ≠ actor
      · rw [if_pos hc] at h; cases h
      · rw [if_neg hc] at h
        push_neg at hc
        refine ⟨o, rfl, hs, hc, ?_⟩
        have hl2 : lookupOrder (updateOrder db oid (fun o => { o with adjustment := a })) oid
            = some { o with adjustment := a } := by
          rw [lookupOrder_updateOrder, if_pos rfl, hl]
          rfl
        rw [recalc_not_cancelled hl2 hs] at h
        injection h with h
        exact h.symm

theorem lock_ok_inv {db : DB} {oid : Nat} {actor : String} {db' : DB}
    (h : lock_order db oid actor = .ok db') :
    ∃ o, lookupOrder db oid = some o ∧ o.status ≠ "cancelled" ∧ o.creator_id = actor ∧
      db' = updateOrder db oid (fun o => { o with status := "locked" }) := by
  unfold lock_order at h
  cases hl : lookupOrder db oid with
  | none => rw [hl] at h; cases h
  | some o =>
    rw [hl] at h
    dsimp only at h
    by_cases hs : o.status = "cancelled"
    · rw [if_pos hs] at h; cases h
    · rw [if_neg hs] at h
      by_cases hc : o.creator_id ≠ actor
      · rw [if_pos hc] at h; cases h
      · rw [if_neg hc] at h
        push_neg at hc
        injection h with h
        exact ⟨o, rfl, hs, hc, h.symm⟩

theorem unlock_ok_inv {db : DB} {oid : Nat} {actor : String} {db' : DB}
    (h : unlock_order db oid actor = .ok db') :
    ∃ o, lookupOrder db oid = some o ∧ o.status ≠ "cancelled" ∧ o.creator_id = actor ∧
      db' = updateOrder db oid (fun o => { o with status := "open" }) := by
  unfold unlock_order at h
  cases hl : lookupOrder db oid with
  | none => rw [hl] at h; cases h
  | some o =>
    rw [hl] at h
    dsimp only at h
    by_cases hs : o.status = "cancelled"
    · rw [if_pos hs] at h; cases h
    · rw [if_neg hs] at h
      by_cases hc : o.creator_id ≠ actor
      · rw [if_pos hc] at h; cases h
      · rw [if_neg hc] at h
        push_neg at hc
        injection h with h
        exact ⟨o, rfl, hs, hc, h.symm⟩

theorem cancel_ok_inv {db : DB} {oid : Nat} {actor : String} {db' : DB}
    (h : cancel_order db oid actor = .ok db') :
    ∃ o, lookupOrder db oid = some o ∧ o.status ≠ "cancelled" ∧ o.creator_id = actor ∧
      db' = updateOrder db oid (fun o => { o with status := "cancelled" }) := by
  unfold cancel_order at h
  cases hl : lookupOrder db oid with
  | none => rw [hl] at h; cases h
  | some o =>
    rw [hl] at h
    dsimp only at h
    by_cases hs : o.status = "cancelled"
    · rw [if_pos hs] at h; cases h
    · rw [if_neg hs] at h
      by_cases hc : o.creator_id ≠ actor
      · rw [if_pos hc] at h; cases h
      · rw [if_neg hc] at h
        push_neg at hc
        injection h with h
        exact ⟨o, rfl, hs, hc, h.symm⟩

theorem mark_paid_ok_inv {db : DB} {oid : Nat} {u : String} {pt : Option String} {db' : DB}
    (h : mark_paid db oid u pt = .ok db') :
    ∃ db1, recalc_order_conn db oid = .ok db1 ∧
      ∃ o, lookupOrder db1 oid = some o ∧
        (db1.participants.any (fun p => p.order_id == oid && p.user_id == u)) = true ∧
        db' = paidUpdate db1 oid u (pt.getD o.payer_id) := by
  unfold mark_paid at h
  cases hr : recalc_order_conn db oid with
  | error e => rw [hr] at h; cases h
  | ok db1 =>
    rw [hr] at h
    dsimp only at h
    cases hl : lookupOrder db1 oid with
    | none => rw [hl] at h; cases h
    | some o =>
      rw [hl] at h
      dsimp only at h
      by_cases ha : (db1.participants.any (fun p => p.order_id == oid && p.user_id == u)) = true
      · rw [if_pos ha] at h
        injection h with h
        exact ⟨db1, rfl, o, hl, ha, h.symm⟩
      · rw [if_neg ha] at h; cases h

theorem add_item_ok_inv {db : DB} {oid : Nat} {u name : String} {price qty : Int}
    {note : String} {cb : Option String} {db' : DB} {iid : Nat}
    (h : add_item db oid u name price qty note cb = .ok (db', iid)) :
    0 < qty ∧ 0 ≤ price ∧ iid = db.next_item_id ∧
    ∃ o, lookupOrder db oid = some o ∧ o.status ≠ "locked" ∧ o.status ≠ "cancelled" ∧
      db' = applyRecalc (withItem db (newItem db oid u name price qty note (cb.getD u))) oid o := by
  unfold add_item at h
  by_cases hq : qty ≤ 0
  · rw [if_pos hq] at h; cases h
  · rw [if_neg hq] at h
    by_cases hp : price < 0
    · rw [if_pos hp] at h; cases h
    · rw [if_neg hp] at h
      cases he : ensure_order_editable db oid with
      | error e => rw [he] at h; cases h
      | ok v =>
        cases v
        rw [he] at h
        dsimp only at h
        obtain ⟨o, hl, hnl, hnc⟩ := ensure_ok_inv he
        have hl2 : lookupOrder (withItem db (newItem db oid u name price qty note (cb.getD u))) oid
            = some o := hl
        rw [recalc_not_cancelled hl2 hnc] at h
        injection h with h
        injection h with h1 h2
        exact ⟨lt_of_not_le hq, le_of_not_lt hp, h2.symm,
          o, hl, hnl, hnc, h1.symm⟩

theorem pythonRound_close (q : ℚ) : |q - pythonRound q| ≤ 1/2 := by
  unfold pythonRound
  by_cases hf : q - ⌊q⌋ = 1/2
  · rw [if_pos hf]
    by_cases he : ⌊q⌋ % 2 = 0
    · rw [if_pos he, hf, abs_of_nonneg (by norm_num : (0:ℚ) ≤ 1/2)]
    · rw [if_neg he]
      push_cast
      have hq : q - (⌊q⌋ + 1) = -(1/2) := by linarith
      rw [hq, abs_neg, abs_of_nonneg (by norm_num : (0:ℚ) ≤ 1/2)]
  · rw [if_neg hf]
    exact abs_sub_round q

theorem pythonRound_tie_even {q : ℚ} (hf : q - ⌊q⌋ = 1/2) : Even (pythonRound q) := by
  unfold pythonRound
  rw [if_pos hf]
  by_cases he : ⌊q⌋ % 2 = 0
  · rw [if_pos he]
    exact Int.even_iff.mpr he
  · rw [if_neg he]
    have hodd : Odd ⌊q⌋ := Int.odd_iff.mpr (Int.emod_two_eq_zero_or_one ⌊q⌋ |>.resolve_left he)
    exact Odd.add_one hodd

/-- Claim C8: a recomputation pass on a cancelled order is a successful
no-op: it returns `.ok` with the state unchanged, so every participant row
(total_due and payment fields alike) is exactly as before the call,
whatever the current line items, discount or adjustment are. -/
theorem C8_cancelled_recalc_noop (db : DB) (oid : Nat) (o : Order)
    (hl : lookupOrder db oid = some o) (hs : o.status = "cancelled") :
    recalc_order_conn db oid = .ok db :=
  recalc_cancelled hl hs

/-- Witness for C8 on the concrete cancelled example state. -/
theorem C8_cancelled_recalc_noop_witness :
    recalc_order_conn exCancelled 1 = .ok exCancelled :=
  C8_cancelled_recalc_noop exCancelled 1
    { created_at := 0, vendor := "shop", note := "tea run", creator_id := "A",
      payer_id := "A", discount_type := "none", discount_value := 0,
      adjustment := 0, status := "cancelled" }
    (by decide) (by decide)

/-- Counterexample to Claim C5 as stated: on a locked order (status not
`open`), `set_adjustment` succeeds rather than failing with an
OrderNotEditable-class error. -/
theorem C5_counterexample :
    (lookupOrder exLocked 1).map (·.status) = some "locked"
      ∧ isOk (set_adjustment exLocked 1 5 "A") = true := by
  decide

/-- Claim C5 (amended): `set_discount_percent` fails with
`orderNotEditable` whenever the order is locked or cancelled, but
`set_adjustment` performs no editability check: it fails (with the
cancelled-specific error) only on cancelled orders, fails with
`notAuthorized` when the actor is not the creator of a non-cancelled
order, and on a locked order with the creator as actor it succeeds.
Failing calls return `.error`, which carries no state: the store is
unchanged. -/
theorem C5_discount_adjustment_gating :
    (∀ (db : DB) (oid : Nat) (pct : ℚ) (o : Order), lookupOrder db oid = some o →
      (o.status = "locked" ∨ o.status = "cancelled") → 0 ≤ pct → pct ≤ 1 →
      set_discount_percent db oid pct = .error .orderNotEditable)
    ∧ (∀ (db : DB) (oid : Nat) (a : Int) (actor : String) (o : Order),
        lookupOrder db oid = some o → o.status = "cancelled" →
        set_adjustment db oid a actor = .error .alreadyCancelled)
    ∧ (∀ (db : DB) (oid : Nat) (a : Int) (actor : String) (o : Order),
        lookupOrder db oid = some o → o.status ≠ "cancelled" → o.creator_id ≠ actor →
        set_adjustment db oid a actor = .error .notAuthorized)
    ∧ (∀ (db : DB) (oid : Nat) (a : Int) (actor : String) (o : Order),
        lookupOrder db oid = some o → o.status = "locked" → o.creator_id = actor →
        set_adjustment db oid a actor
          = .ok (applyRecalc (updateOrder db oid (fun x => { x with adjustment := a })) oid
              { o with adjustment := a })) := by
  refine ⟨?_, ?_, ?_, ?_⟩
  · intro db oid pct o hl hs h0 h1
    unfold set_discount_percent
    rw [if_neg (not_not_intro ⟨h0, h1⟩), ensure_err_of_not_open hl hs]
  · intro db oid a actor o hl hs
    unfold set_adjustment
    rw [hl]
    dsimp only
    rw [if_pos hs]
  · intro db oid a actor o hl hs hc
    unfold set_adjustment
    rw [hl]
    dsimp only
    rw [if_neg hs, if_pos hc]
  · intro db oid a actor o hl hs hc
    unfold set_adjustment
    rw [hl]
    dsimp only
    rw [if_neg (by rw [hs]; decide), if_neg (by rw [hc]; exact not_not_intro rfl)]
    have hl2 : lookupOrder (updateOrder db oid (fun x => { x with adjustment := a })) oid
        = some { o with adjustment := a } := by
      rw [lookupOrder_updateOrder, if_pos rfl, hl]
      rfl
    exact recalc_not_cancelled hl2 (by rw [hs]; decide)

/-- Witness for the amended C5 on the concrete open/locked/cancelled
example states: discount rejected on a locked order, adjustment rejected
on a cancelled order and for a non-creator actor, adjustment accepted on
a locked order for the creator. -/
theorem C5_discount_adjustment_gating_witness :
    set_discount_percent exLocked 1 (9/10) = .error .orderNotEditable
      ∧ set_adjustment exCancelled 1 5 "A" = .error .alreadyCancelled
      ∧ set_adjustment exDB1 1 5 "B" = .error .notAuthorized
      ∧ isOk (set_adjustment exLocked 1 5 "A") = true := by
  refine ⟨?_, ?_, ?_, ?_⟩
  · exact C5_discount_adjustment_gating.1 exLocked 1 (9/10)
      { created_at := 0, vendor := "shop", note := "tea run", creator_id := "A",
        payer_id := "A", discount_type := "none", discount_value := 0,
        adjustment := 0, status := "locked" }
      (by decide) (Or.inl rfl) (by norm_num) (by norm_num)
  · exact C5_discount_adjustment_gating.2.1 exCancelled 1 5 "A"
      { created_at := 0, vendor := "shop", note := "tea run", creator_id := "A",
        payer_id := "A", discount_type := "none", discount_value := 0,
        adjustment := 0, status := "cancelled" }
      (by decide) rfl
  · exact C5_discount_adjustment_gating.2.2.1 exDB1 1 5 "B"
      { created_at := 0, vendor := "shop", note := "tea run", creator_id := "A",
        payer_id := "A", discount_type := "none", discount_value := 0,
        adjustment := 0, status := "open" }
      (by decide) (by decide) (by decide)
  · rw [C5_discount_adjustment_gating.2.2.2 exLocked 1 5 "A"
      { created_at := 0, vendor := "shop", note := "tea run", creator_id := "A",
        payer_id := "A", discount_type := "none", discount_value := 0,
        adjustment := 0, status := "locked" }
      (by decide) rfl rfl]
    rfl

/-- Counterexample to Claim C6 as stated: locking an already-locked order
does not fail with an InvalidTransition-class error — it succeeds. -/
theorem C6_counterexample :
    (lookupOrder exLocked 1).map (·.status) = some "locked"
      ∧ isOk (lock_order exLocked 1 "A") = true := by
  decide

/-- Claim C6 (amended): `lock_order` fails with `orderNotFound` on a
missing order; with `alreadyCancelled` on a cancelled order (this check
precedes authorization); with `notAuthorized` when the actor is not the
creator of a non-cancelled order; and succeeds whenever the order is not
cancelled and the actor is the creator — including when the order is
already locked, in which case it idempotently sets status `locked` again.
Failures return `.error` and so leave the state unchanged. -/
theorem C6_lock_gating :
    (∀ (db : DB) (oid : Nat) (actor : String), lookupOrder db oid = none →
      lock_order db oid actor = .error .orderNotFound)
    ∧ (∀ (db : DB) (oid : Nat) (actor : String) (o : Order), lookupOrder db oid = some o →
        o.status = "cancelled" → lock_order db oid actor = .error .alreadyCancelled)
    ∧ (∀ (db : DB) (oid : Nat) (actor : String) (o : Order), lookupOrder db oid = some o →
        o.status ≠ "cancelled" → o.creator_id ≠ actor →
        lock_order db oid actor = .error .notAuthorized)
    ∧ (∀ (db : DB) (oid : Nat) (actor : String) (o : Order), lookupOrder db oid = some o →
        o.status ≠ "cancelled" → o.creator_id = actor →
        lock_order db oid actor = .ok (updateOrder db oid (fun x => { x with status := "locked" }))
          ∧ lookupOrder (updateOrder db oid (fun x => { x with status := "locked" })) oid
              = some { o with status := "locked" }) := by
  refine ⟨?_, ?_, ?_, ?_⟩
  · intro db oid actor hl
    unfold lock_order
    rw [hl]
  · intro db oid actor o hl hs
    unfold lock_order
    rw [hl]
    dsimp only
    rw [if_pos hs]
  · intro db oid actor o hl hs hc
    unfold lock_order
    rw [hl]
    dsimp only
    rw [if_neg hs, if_pos hc]
  · intro db oid actor o hl hs hc
    constructor
    · unfold lock_order
      rw [hl]
      dsimp only
      rw [if_neg hs, if_neg (not_not_intro hc)]
    · rw [lookupOrder_updateOrder, if_pos rfl, hl]
      rfl

/-- Witness for the amended C6: not-found, cancelled-precedence,
not-authorized, and an idempotent relock on the concrete example states. -/
theorem C6_lock_gating_witness :
    lock_order initDB 1 "A" = .error .orderNotFound
      ∧ lock_order exCancelled 1 "B" = .error .alreadyCancelled
      ∧ lock_order exDB1 1 "B" = .error .notAuthorized
      ∧ lock_order exLocked 1 "A"
          = .ok (updateOrder exLocked 1 (fun x => { x with status := "locked" })) := by
  refine ⟨?_, ?_, ?_, ?_⟩
  · exact C6_lock_gating.1 initDB 1 "A" (by decide)
  · exact C6_lock_gating.2.1 exCancelled 1 "B"
      { created_at := 0, vendor := "shop", note := "tea run", creator_id := "A",
        payer_id := "A", discount_type := "none", discount_value := 0,
        adjustment := 0, status := "cancelled" }
      (by decide) rfl
  · exact C6_lock_gating.2.2.1 exDB1 1 "B"
      { created_at := 0, vendor := "shop", note := "tea run", creator_id := "A",
        payer_id := "A", discount_type := "none", discount_value := 0,
        adjustment := 0, status := "open" }
      (by decide) (by decide) (by decide)
  · exact (C6_lock_gating.2.2.2 exLocked 1 "A"
      { created_at := 0, vendor := "shop", note := "tea run", creator_id := "A",
        payer_id := "A", discount_type := "none", discount_value := 0,
        adjustment := 0, status := "locked" }
      (by decide) (by decide) rfl).1

/-- Claim C7: for discount kind `percent` with 0 ≤ p ≤ 1, the discounted
amount is `pythonRound (subtotal * p)`, where `pythonRound` is
round-half-to-even on the exact rational product: it is within 1/2 of the
product and lands on an even integer at exact ties; in particular a
subtotal of 5 at p = 1/2 yields 2, not 3.  (The Python float
`discount_value` is modelled as an exact rational.) -/
theorem C7_percent_banker_rounding :
    (∀ (s : Nat) (p : ℚ), 0 ≤ p → p ≤ 1 →
      calc_total "percent" p (s : Int) = pythonRound ((s : ℚ) * p)
        ∧ |((s : ℚ) * p) - (pythonRound ((s : ℚ) * p) : ℚ)| ≤ 1/2
        ∧ (((s : ℚ) * p) - ⌊((s : ℚ) * p)⌋ = 1/2 → Even (pythonRound ((s : ℚ) * p))))
    ∧ calc_total "percent" (1/2) 5 = 2 := by
  constructor
  · intro s p h0 h1
    refine ⟨?_, pythonRound_close _, fun hf => pythonRound_tie_even hf⟩
    unfold calc_total
    rw [if_neg (by decide), if_pos rfl]
    norm_cast
  · unfold calc_total
    rw [if_neg (by decide), if_pos rfl]
    unfold pythonRound
    push_cast
    rw [show (5 : ℚ) * (1/2) = 5/2 by norm_num, show ⌊(5:ℚ)/2⌋ = 2 by norm_num]
    norm_num

/-- Witness for C7 at subtotal 5 and p = 1/2. -/
theorem C7_percent_banker_rounding_witness :
    calc_total "percent" (1/2) ((5 : Nat) : Int) = pythonRound (((5 : Nat) : ℚ) * (1/2))
      ∧ |(((5 : Nat) : ℚ) * (1/2)) - (pythonRound (((5 : Nat) : ℚ) * (1/2)) : ℚ)| ≤ 1/2
      ∧ ((((5 : Nat) : ℚ) * (1/2)) - ⌊(((5 : Nat) : ℚ) * (1/2))⌋ = 1/2 →
          Even (pythonRound (((5 : Nat) : ℚ) * (1/2)))) :=
  C7_percent_banker_rounding.1 5 (1/2) (by norm_num) (by norm_num)

theorem sum_filter_not_filter {α : Type} (l : List α) (p : α → Bool) (f : α → Int) :
    ((l.filter p).map f).sum + ((l.filter (fun x => !(p x))).map f).sum = (l.map f).sum := by
  induction l with
  | nil => rfl
  | cons a l ih =>
    by_cases h : p a = true
    · simp [List.filter_cons, h]
      omega
    · have h2 : p a = false := by simpa using h
      simp [List.filter_cons, h2]
      omega

theorem sum_fiberwise_int {κ α : Type} [DecidableEq κ] (ks : List κ) (l : List α)
    (key : α → κ) (f : α → Int) (hnd : ks.Nodup) (hcov : ∀ x ∈ l, key x ∈ ks) :
    (ks.map (fun k => ((l.filter (fun x => key x == k)).map f).sum)).sum = (l.map f).sum := by
  induction ks generalizing l with
  | nil =>
    have hl : l = [] := List.eq_nil_iff_forall_not_mem.mpr
      (fun x hx => absurd (hcov x hx) (List.not_mem_nil _))
    subst hl
    rfl
  | cons k ks ih =>
    obtain ⟨hk, hnd2⟩ := List.nodup_cons.mp hnd
    have hfeq : ∀ k2 ∈ ks, (l.filter (fun x => key x == k2))
        = ((l.filter (fun x => !(key x == k))).filter (fun x => key x == k2)) := by
      intro k2 hk2
      have hne : k2 ≠ k := fun h => hk (h ▸ hk2)
      rw [List.filter_filter]
      apply List.filter_congr
      intro x hx
      by_cases hx2 : key x = k2
      · have hxk : (key x == k) = false :=
          beq_eq_false_iff_ne.mpr (fun h => hne ((hx2.symm.trans h)))
        simp [hx2, hxk, hne]
      · simp [beq_eq_false_iff_ne.mpr hx2]
    have hfib : (ks.map (fun k2 => ((l.filter (fun x => key x == k2)).map f).sum))
        = ks.map (fun k2 =>
            (((l.filter (fun x => !(key x == k))).filter (fun x => key x == k2)).map f).sum) := by
      apply List.map_congr_left
      intro k2 hk2
      rw [hfeq k2 hk2]
    have hcov2 : ∀ x ∈ l.filter (fun x => !(key x == k)), key x ∈ ks := by
      intro x hx
      obtain ⟨hxl, hxb⟩ := List.mem_filter.mp hx
      have hxk : key x ≠ k := by simpa using hxb
      rcases List.mem_cons.mp (hcov x hxl) with h | h
      · exact absurd h hxk
      · exact h
    rw [List.map_cons, List.sum_cons, hfib,
      ih (l.filter (fun x => !(key x == k))) hnd2 hcov2, sum_filter_not_filter]

theorem filterMap_kept_totals (db : DB) (o : Order) (oid : Nat) (l : List Participant) :
    (((l.filterMap (keptRow db o oid)).filter (fun p => p.order_id == oid)).map (·.total_due))
      = ((((l.filter (fun p => p.order_id == oid)).map (·.user_id)).filter
          (fun u => (itemUsers db oid).contains u)).map (fun u => dueFor db o oid u)) := by
  induction l with
  | nil => rfl
  | cons p l ih =>
    rw [List.filterMap_cons]
    by_cases h1 : p.order_id = oid
    · by_cases h2 : p.user_id ∈ itemUsers db oid
      · have hk : keptRow db o oid p = some { p with total_due := dueFor db o oid p.user_id } := by
          unfold keptRow
          rw [if_pos h1, if_pos h2]
        have hc : (itemUsers db oid).contains p.user_id = true := by
          simp [List.contains, List.elem_eq_mem, h2]
        rw [hk]
        simp [List.filter_cons, h1, h2, hc, ih]
      · have hk : keptRow db o oid p = none := by
          unfold keptRow
          rw [if_pos h1, if_neg h2]
        have hc : (itemUsers db oid).contains p.user_id = false := by
          simp [List.contains, List.elem_eq_mem, h2]
        rw [hk]
        simp [List.filter_cons, h1, h2, hc, ih]
    · have hk : keptRow db o oid p = some p := by
        unfold keptRow
        rw [if_neg h1]
      rw [hk]
      simp [List.filter_cons, h1, ih]

theorem fresh_totals (db : DB) (o : Order) (oid : Nat) (l : List String) :
    (((l.map (freshRow db o oid)).filter (fun p => p.order_id == oid)).map (·.total_due))
      = l.map (fun u => dueFor db o oid u) := by
  induction l with
  | nil => rfl
  | cons u l ih =>
    simp only [List.map_cons, List.filter_cons]
    have hb : ((freshRow db o oid u).order_id == oid) = true := by
      simp [freshRow]
    rw [hb]
    simp only [if_true, List.map_cons]
    rw [ih]
    rfl

theorem applyRecalc_oid_totals (db : DB) (o : Order) (oid : Nat) :
    (((applyRecalc db oid o).participants.filter (fun p => p.order_id == oid)).map (·.total_due))
      = (((haveRowUsers db oid).filter (fun u => (itemUsers db oid).contains u))
          ++ ((itemUsers db oid).filter (fun u => !(haveRowUsers db oid).contains u))).map
            (fun u => dueFor db o oid u) := by
  show (((db.participants.filterMap (keptRow db o oid)
      ++ ((itemUsers db oid).filter (fun u => !(haveRowUsers db oid).contains u)).map
           (freshRow db o oid)).filter (fun p => p.order_id == oid)).map (·.total_due)) = _
  rw [List.filter_append, List.map_append, List.map_append,
    filterMap_kept_totals db o oid db.participants, fresh_totals]
  rfl

theorem kept_fresh_perm (db : DB) (oid : Nat) (hnd : (haveRowUsers db oid).Nodup) :
    (((haveRowUsers db oid).filter (fun u => (itemUsers db oid).contains u))
      ++ ((itemUsers db oid).filter (fun u => !(haveRowUsers db oid).contains u))).Perm
      (itemUsers db oid) := by
  have husers : (itemUsers db oid).Nodup := List.nodup_dedup _
  have h1 : ((haveRowUsers db oid).filter (fun u => (itemUsers db oid).contains u)).Nodup :=
    hnd.filter _
  have h2 : ((itemUsers db oid).filter (fun u => !(haveRowUsers db oid).contains u)).Nodup :=
    husers.filter _
  have hdisj : List.Disjoint
      ((haveRowUsers db oid).filter (fun u => (itemUsers db oid).contains u))
      ((itemUsers db oid).filter (fun u => !(haveRowUsers db oid).contains u)) := by
    intro a ha1 ha2
    obtain ⟨hm1, hb1⟩ := List.mem_filter.mp ha1
    obtain ⟨hm2, hb2⟩ := List.mem_filter.mp ha2
    have : a ∉ haveRowUsers db oid := by
      simpa [List.contains, List.elem_eq_mem] using hb2
    exact this hm1
  rw [List.perm_ext_iff_of_nodup (h1.append h2 hdisj) husers]
  intro a
  simp only [List.mem_append, List.mem_filter, List.contains, List.elem_eq_mem,
    decide_eq_true_eq, Bool.not_eq_true', decide_eq_false_iff_not]
  constructor
  · rintro (⟨h3, h4⟩ | ⟨h3, h4⟩) <;> [exact h4; exact h3]
  · intro h
    by_cases hr : a ∈ haveRowUsers db oid
    · exact Or.inl ⟨hr, h⟩
    · exact Or.inr ⟨h, hr⟩

theorem subtotal_eq_fiber (db : DB) (oid : Nat) (u : String) :
    ((((db.line_items.filter (fun li => li.order_id == oid)).filter
        (fun li => li.user_id == u)).map (fun li => ((li.unit_price * li.qty : Nat) : Int))).sum)
      = ((subtotal db oid u : Nat) : Int) := by
  unfold subtotal
  rw [List.filter_filter]
  have hc : (db.line_items.filter (fun li => li.user_id == u && li.order_id == oid))
      = db.line_items.filter (fun li => li.order_id == oid && li.user_id == u) := by
    apply List.filter_congr
    intro x hx
    rw [Bool.and_comm]
  rw [hc, Nat.cast_list_sum, List.map_map]
  rfl

/-- Claim C2: recomputation is idempotent — if a recalculation pass
succeeds and produces state `db'`, running it again on `db'` succeeds and
returns `db'` itself, so the Participants result set (total_due and
paid/paid_at/paid_to values alike) is identical. -/
theorem C2_recalc_idempotent (db : DB) (oid : Nat) (db' : DB)
    (h : recalc_order_conn db oid = .ok db') :
    recalc_order_conn db' oid = .ok db' := by
  obtain ⟨o, hl, hcase⟩ := recalc_ok_inv h
  rcases hcase with ⟨hs, rfl⟩ | ⟨hs, rfl⟩
  · exact recalc_cancelled hl hs
  · have hl2 : lookupOrder (applyRecalc db oid o) oid = some o := by
      rw [lookupOrder_applyRecalc, hl]
    rw [recalc_not_cancelled hl2 hs, applyRecalc_idem]

/-- Witness for C2 on the concrete example state, which is a fixpoint of
recomputation. -/
theorem C2_recalc_idempotent_witness :
    recalc_order_conn exDB1 1 = .ok exDB1 :=
  C2_recalc_idempotent exDB1 1 exDB1 (by rfl)

/-- Claim C1: after a successful recomputation pass on a non-cancelled
order, every participant row of the order carries
`total_due = max 0 (calc_total discount_type discount_value subtotal + adjustment)`
(hence is non-negative), where the discount is the identity for kinds
`none` and `amount` and banker-rounded `subtotal * p` for `percent`; and
when the discount kind is `none` and the adjustment 0, the totals of the
order sum to the sum of `unit_price * qty` over the order's line items
(given the primary-key uniqueness of (order, user) participant rows,
stated as `Nodup` of the row users). -/
theorem C1_total_due_invariant (db : DB) (oid : Nat) (o : Order) (db' : DB)
    (hl : lookupOrder db oid = some o) (hs : o.status ≠ "cancelled")
    (h : recalc_order_conn db oid = .ok db') :
    (∀ p ∈ db'.participants, p.order_id = oid →
        p.total_due
          = max 0 (calc_total o.discount_type o.discount_value (subtotal db oid p.user_id)
              + o.adjustment)
          ∧ 0 ≤ p.total_due)
    ∧ (∀ (v : ℚ) (s : Int), calc_total "none" v s = s ∧ calc_total "amount" v s = s
        ∧ calc_total "percent" v s = pythonRound ((s : ℚ) * v))
    ∧ (o.discount_type = "none" → o.adjustment = 0 → (haveRowUsers db oid).Nodup →
        ((db'.participants.filter (fun p => p.order_id == oid)).map (·.total_due)).sum
          = ((db.line_items.filter (fun li => li.order_id == oid)).map
              (fun li => ((li.unit_price * li.qty : Nat) : Int))).sum) := by
  obtain ⟨o2, hl2, hcase⟩ := recalc_ok_inv h
  rw [hl] at hl2
  have ho2 : o = o2 := Option.some.inj hl2
  subst ho2
  rcases hcase with ⟨hc, rfl⟩ | ⟨hc, rfl⟩
  · exact absurd hc hs
  refine ⟨?_, ?_, ?_⟩
  · intro p hp hord
    obtain ⟨hmem, htd⟩ := applyRecalc_rows_normal p hp hord
    refine ⟨htd, ?_⟩
    rw [htd]
    exact le_max_left 0 _
  · intro v s
    refine ⟨rfl, rfl, ?_⟩
    unfold calc_total
    rw [if_neg (by decide), if_pos rfl]
  · intro hdt hadj hnd
    rw [applyRecalc_oid_totals]
    rw [((kept_fresh_perm db oid hnd).map (fun u => dueFor db o oid u)).sum_eq]
    have hdue : ∀ u2 ∈ itemUsers db oid, dueFor db o oid u2
        = (((db.line_items.filter (fun li => li.order_id == oid)).filter
            (fun li => li.user_id == u2)).map
              (fun li => ((li.unit_price * li.qty : Nat) : Int))).sum := by
      intro u2 hu2
      rw [subtotal_eq_fiber]
      unfold dueFor
      rw [hdt, hadj, add_zero,
        show calc_total "none" o.discount_value ((subtotal db oid u2 : Nat) : Int)
          = ((subtotal db oid u2 : Nat) : Int) from rfl]
      exact max_eq_right (Int.natCast_nonneg _)
    rw [List.map_congr_left hdue]
    exact sum_fiberwise_int (itemUsers db oid)
      (db.line_items.filter (fun li => li.order_id == oid)) (·.user_id) _
      (List.nodup_dedup _) (fun x hx => List.mem_dedup.mpr (List.mem_map_of_mem _ hx))

/-- Witness for C1: conservation on the concrete example order (items
60, 40, 10, discount none, adjustment 0). -/
theorem C1_total_due_invariant_witness :
    ((exDB1.participants.filter (fun p => p.order_id == 1)).map (·.total_due)).sum
      = ((exDB1.line_items.filter (fun li => li.order_id == 1)).map
          (fun li => ((li.unit_price * li.qty : Nat) : Int))).sum :=
  (C1_total_due_invariant exDB1 1
    { created_at := 0, vendor := "shop", note := "tea run", creator_id := "A",
      payer_id := "A", discount_type := "none", discount_value := 0,
      adjustment := 0, status := "open" }
    exDB1 (by rfl) (by decide) (by rfl)).2.2 rfl rfl (by decide)

theorem hasParticipant_any_iff {db : DB} {oid : Nat} {u : String} :
    (db.participants.any (fun p => p.order_id == oid && p.user_id == u)) = true
      ↔ hasParticipant db oid u := by
  rw [List.any_eq_true]
  unfold hasParticipant
  constructor
  · rintro ⟨p, hp, hb⟩
    rw [Bool.and_eq_true] at hb
    exact ⟨p, hp, beq_iff_eq.mp hb.1, beq_iff_eq.mp hb.2⟩
  · rintro ⟨p, hp, h1, h2⟩
    refine ⟨p, hp, ?_⟩
    rw [Bool.and_eq_true]
    exact ⟨beq_iff_eq.mpr h1, beq_iff_eq.mpr h2⟩

theorem paidUpdate_orders (db : DB) (oid : Nat) (u pt : String) :
    (paidUpdate db oid u pt).orders = db.orders := rfl

theorem paidUpdate_line_items (db : DB) (oid : Nat) (u pt : String) :
    (paidUpdate db oid u pt).line_items = db.line_items := rfl

theorem paidUpdate_now (db : DB) (oid : Nat) (u pt : String) :
    (paidUpdate db oid u pt).now = db.now := rfl

theorem mem_paidUpdate_of {db : DB} {oid : Nat} {u pt : String} {p : Participant}
    (hp : p ∈ db.participants) (hord : p.order_id = oid) (hu : p.user_id = u) :
    ({ p with paid := true, paid_at := some db.now, paid_to := some pt } : Participant)
      ∈ (paidUpdate db oid u pt).participants := by
  unfold paidUpdate
  refine List.mem_map.mpr ⟨p, hp, ?_⟩
  rw [if_pos ⟨hord, hu⟩]

theorem hasParticipant_paidUpdate {db : DB} {oid : Nat} {u pt : String} {oid2 : Nat}
    {u2 : String} :
    hasParticipant (paidUpdate db oid u pt) oid2 u2 ↔ hasParticipant db oid2 u2 := by
  unfold hasParticipant paidUpdate
  constructor
  · rintro ⟨q, hq, hord, hu⟩
    obtain ⟨p, hp, hpq⟩ := List.mem_map.mp hq
    by_cases hc : p.order_id = oid ∧ p.user_id = u
    · rw [if_pos hc] at hpq
      refine ⟨p, hp, ?_, ?_⟩
      · rw [show p.order_id = q.order_id from by rw [← hpq]]
        exact hord
      · rw [show p.user_id = q.user_id from by rw [← hpq]]
        exact hu
    · rw [if_neg hc] at hpq
      exact ⟨p, hp, hpq ▸ hord, hpq ▸ hu⟩
  · rintro ⟨p, hp, hord, hu⟩
    by_cases hc : p.order_id = oid ∧ p.user_id = u
    · refine ⟨{ p with paid := true, paid_at := some db.now, paid_to := some pt },
        List.mem_map.mpr ⟨p, hp, by rw [if_pos hc]⟩, hord, hu⟩
    · exact ⟨p, List.mem_map.mpr ⟨p, hp, by rw [if_neg hc]⟩, hord, hu⟩

theorem mark_paid_eq {db dbR : DB} {oid : Nat} {u : String} {pt : Option String} {o : Order}
    (hr : recalc_order_conn db oid = .ok dbR) (hl : lookupOrder dbR oid = some o) :
    mark_paid db oid u pt
      = (if (dbR.participants.any (fun p => p.order_id == oid && p.user_id == u)) = true
          then .ok (paidUpdate dbR oid u (pt.getD o.payer_id))
          else .error .noSuchParticipant) := by
  unfold mark_paid
  rw [hr]
  dsimp only
  rw [hl]

theorem applyRecalc_keeps_row {db : DB} {oid : Nat} {o : Order} {p : Participant}
    (hp : p ∈ db.participants) (hord : p.order_id = oid)
    (hmem : p.user_id ∈ itemUsers db oid) :
    ({ p with total_due := dueFor db o oid p.user_id } : Participant)
      ∈ (applyRecalc db oid o).participants :=
  mem_applyRecalc.mpr (Or.inl ⟨p, hp, Or.inr ⟨hord, hmem, rfl⟩⟩)

/-- Claim C4: recomputation is a frame for the payment fields.  (i) Every
pre-existing row whose user still owns items survives with the same
`paid`/`paid_at`/`paid_to` and a freshly computed `total_due`; (ii) every
row present after the pass either inherits its payment fields from a
pre-existing row with the same (order, user) key or is newly inserted
with the unpaid defaults (`paid = false`, `paid_at = none`,
`paid_to = none`); (iii) in particular, marking a user paid and then
changing the discount leaves `paid = true` and `paid_at` unchanged while
`total_due` is updated to the new discounted value. -/
theorem C4_paid_fields_sticky :
    (∀ (db : DB) (oid : Nat) (o : Order) (p : Participant),
        p ∈ db.participants → p.order_id = oid → p.user_id ∈ itemUsers db oid →
        ({ p with total_due := dueFor db o oid p.user_id } : Participant)
          ∈ (applyRecalc db oid o).participants)
    ∧ (∀ (db : DB) (oid : Nat) (o : Order) (q : Participant),
        q ∈ (applyRecalc db oid o).participants →
        (∃ p ∈ db.participants, p.order_id = q.order_id ∧ p.user_id = q.user_id ∧
          p.paid = q.paid ∧ p.paid_at = q.paid_at ∧ p.paid_to = q.paid_to)
        ∨ (q.paid = false ∧ q.paid_at = none ∧ q.paid_to = none))
    ∧ (∀ (db : DB) (oid : Nat) (u : String) (pct : ℚ) (db1 db2 : DB) (o : Order),
        lookupOrder db oid = some o →
        mark_paid db oid u none = .ok db1 →
        set_discount_percent db1 oid pct = .ok db2 →
        ∃ q ∈ db2.participants, q.order_id = oid ∧ q.user_id = u ∧
          q.paid = true ∧ q.paid_at = some db.now ∧
          q.total_due = max 0 (pythonRound (((subtotal db oid u : Int) : ℚ) * pct)
            + o.adjustment)) := by
  refine ⟨?_, ?_, ?_⟩
  · intro db oid o p hp hord hmem
    exact applyRecalc_keeps_row hp hord hmem
  · intro db oid o q hq
    rcases mem_applyRecalc.mp hq with (⟨p, hp, (⟨hne, hqp⟩ | ⟨heq, hmem, hqp⟩)⟩ | ⟨v, hv, hnr, hqv⟩)
    · exact Or.inl ⟨p, hp, by rw [hqp], by rw [hqp], by rw [hqp], by rw [hqp], by rw [hqp]⟩
    · exact Or.inl ⟨p, hp, by rw [hqp], by rw [hqp], by rw [hqp], by rw [hqp], by rw [hqp]⟩
    · exact Or.inr ⟨by rw [hqv]; rfl, by rw [hqv]; rfl, by rw [hqv]; rfl⟩
  · intro db oid u pct db1 db2 o hl h1 h2
    obtain ⟨dbR, hr, o1, hlR1, hany, hdb1⟩ := mark_paid_ok_inv h1
    obtain ⟨⟨hp0, hp1⟩, o2, hl21, hnl2, hnc2, hdb2⟩ := set_discount_ok_inv h2
    have hlR : lookupOrder dbR oid = some o := by
      obtain ⟨o3, hl3, hcase⟩ := recalc_ok_inv hr
      rcases hcase with ⟨hc, rfl⟩ | ⟨hc, rfl⟩
      · exact hl
      · rw [lookupOrder_applyRecalc]
        exact hl
    have ho1 : o1 = o := Option.some.inj (hlR1.symm.trans hlR)
    rw [ho1] at hdb1
    have hlo2 : lookupOrder db1 oid = some o := by
      rw [hdb1]
      exact hlR
    have ho2 : o2 = o := Option.some.inj (hl21.symm.trans hlo2)
    rw [ho2] at hnl2 hnc2 hdb2
    have hnc : o.status ≠ "cancelled" := hnc2
    have hdbR : dbR = applyRecalc db oid o := by
      obtain ⟨o3, hl3, hcase⟩ := recalc_ok_inv hr
      have ho3 : o3 = o := Option.some.inj (hl3.symm.trans hl)
      subst ho3
      rcases hcase with ⟨hc, rfl⟩ | ⟨hc, hres⟩
      · exact absurd hc hnc
      · exact hres
    obtain ⟨prow, hprow, hpord, hpu⟩ := hasParticipant_any_iff.mp hany
    have hitem : hasItem db oid u := by
      apply hasParticipant_applyRecalc_self.mp
      rw [← hdbR]
      exact ⟨prow, hprow, hpord, hpu⟩
    have hnowR : dbR.now = db.now := by
      rw [hdbR]
      rfl
    have hq1 : ({ prow with paid := true, paid_at := some dbR.now, paid_to := some o.payer_id } : Participant) ∈ db1.participants := by
      rw [hdb1]
      exact mem_paidUpdate_of hprow hpord hpu
    set db1u := updateOrder db1 oid
      (fun x => { x with discount_type := "percent", discount_value := pct }) with hdb1u
    have hmem1u : ({ prow with paid := true, paid_at := some dbR.now, paid_to := some o.payer_id } : Participant) ∈ db1u.participants := hq1
    have hitem1u : (prow.user_id ∈ itemUsers db1u oid) := by
      rw [hpu]
      apply mem_itemUsers.mpr
      have hli : db1u.line_items = db.line_items := by
        rw [hdb1u, updateOrder_line_items, hdb1, paidUpdate_line_items, hdbR]
        rfl
      unfold hasItem
      rw [hli]
      exact hitem
    have hq2mem := applyRecalc_keeps_row
      (o := { o with discount_type := "percent", discount_value := pct }) hmem1u hpord hitem1u
    rw [← hdb2] at hq2mem
    refine ⟨_, hq2mem, hpord, hpu, rfl, ?_, ?_⟩
    · rw [hnowR]
    · show dueFor db1u { o with discount_type := "percent", discount_value := pct } oid
        prow.user_id = _
      rw [hpu, hdb1u, hdb1, hdbR]
      rfl

/-- Witness for C4: in the running example, user "B" is marked paid, then
the discount is set to 9/10; the resulting row keeps `paid = true` and the
original `paid_at` while `total_due` becomes the banker-rounded
discounted subtotal. -/
theorem C4_paid_fields_sticky_witness :
    ∃ q ∈ exPaidDisc.participants, q.order_id = 1 ∧ q.user_id = "B" ∧
      q.paid = true ∧ q.paid_at = some exDB1.now ∧
      q.total_due = max 0 (pythonRound (((subtotal exDB1 1 "B" : Int) : ℚ) * (9/10))
        + exOrderOpen.adjustment) := by
  refine C4_paid_fields_sticky.2.2 exDB1 1 "B" (9/10) exPaid exPaidDisc exOrderOpen
    (by rfl) (by rfl) ?_
  unfold set_discount_percent
  rw [if_neg (not_not_intro ⟨by norm_num, by norm_num⟩)]
  rw [show ensure_order_editable exPaid 1 = .ok () from by rfl]
  have hl2 : lookupOrder
      (updateOrder exPaid 1 (fun x => { x with discount_type := "percent",
                                               discount_value := 9/10 })) 1
      = some { exOrderOpen with discount_type := "percent", discount_value := 9/10 } := by
    rw [lookupOrder_updateOrder, if_pos rfl, show lookupOrder exPaid 1 = some exOrderOpen from by rfl]
    rfl
  exact recalc_not_cancelled hl2 (by decide)

/-- Claim C9: `mark_paid` fails with `orderNotFound` when the order id
does not exist; fails with `noSuchParticipant` when the target user owns
no line items in the order (for a cancelled order: when the frozen table
has no row for the user), the failure committing no state change; and it
succeeds on a locked order for a user owning items, setting the row's
`paid` flag, stamping `paid_at` with the current clock, and defaulting
`paid_to` to the order's payer while leaving orders and line items
untouched. -/
theorem C9_mark_paid_contract :
    (∀ (db : DB) (oid : Nat) (u : String) (pt : Option String),
        lookupOrder db oid = none → mark_paid db oid u pt = .error .orderNotFound)
    ∧ (∀ (db : DB) (oid : Nat) (u : String) (pt : Option String) (o : Order),
        lookupOrder db oid = some o →
        (∀ li ∈ db.line_items, ¬(li.order_id = oid ∧ li.user_id = u)) →
        (o.status = "cancelled" → ∀ p ∈ db.participants, ¬(p.order_id = oid ∧ p.user_id = u)) →
        mark_paid db oid u pt = .error .noSuchParticipant)
    ∧ (∀ (db : DB) (oid : Nat) (u : String) (o : Order),
        lookupOrder db oid = some o → o.status = "locked" → hasItem db oid u →
        ∃ db', mark_paid db oid u none = .ok db' ∧
          db'.orders = db.orders ∧ db'.line_items = db.line_items ∧
          ∃ q ∈ db'.participants, q.order_id = oid ∧ q.user_id = u ∧
            q.paid = true ∧ q.paid_at = some db.now ∧ q.paid_to = some o.payer_id) := by
  refine ⟨?_, ?_, ?_⟩
  · intro db oid u pt hl
    unfold mark_paid
    rw [show recalc_order_conn db oid = .error .orderNotFound from by
      unfold recalc_order_conn
      rw [hl]]
  · intro db oid u pt o hl hnoitem hnorow
    by_cases hs : o.status = "cancelled"
    · have hr : recalc_order_conn db oid = .ok db := recalc_cancelled hl hs
      rw [mark_paid_eq hr hl]
      rw [if_neg ?_]
      intro hany
      obtain ⟨p, hp, hord, hu⟩ := hasParticipant_any_iff.mp hany
      exact hnorow hs p hp ⟨hord, hu⟩
    · have hr := recalc_not_cancelled hl hs
      have hl2 : lookupOrder (applyRecalc db oid o) oid = some o := by
        rw [lookupOrder_applyRecalc]
        exact hl
      rw [mark_paid_eq hr hl2]
      rw [if_neg ?_]
      intro hany
      obtain ⟨li, hli, hord, hu⟩ :=
        hasParticipant_applyRecalc_self.mp (hasParticipant_any_iff.mp hany)
      exact hnoitem li hli ⟨hord, hu⟩
  · intro db oid u o hl hlk hitem
    have hs : o.status ≠ "cancelled" := by
      rw [hlk]
      decide
    have hr := recalc_not_cancelled hl hs
    have hl2 : lookupOrder (applyRecalc db oid o) oid = some o := by
      rw [lookupOrder_applyRecalc]
      exact hl
    have hpart : hasParticipant (applyRecalc db oid o) oid u :=
      hasParticipant_applyRecalc_self.mpr hitem
    have hany := hasParticipant_any_iff.mpr hpart
    rw [mark_paid_eq hr hl2, if_pos hany]
    refine ⟨_, rfl, rfl, rfl, ?_⟩
    obtain ⟨prow, hprow, hpord, hpu⟩ := hpart
    exact ⟨{ prow with paid := true, paid_at := some (applyRecalc db oid o).now, paid_to := some (Option.getD none o.payer_id) },
      mem_paidUpdate_of hprow hpord hpu, hpord, hpu, rfl, rfl, rfl⟩

/-- Witness for C9: missing order, item-less user, and a successful
payment on the locked example order. -/
theorem C9_mark_paid_contract_witness :
    mark_paid initDB 1 "A" none = .error .orderNotFound
    ∧ mark_paid exDB1 1 "C" none = .error .noSuchParticipant
    ∧ (∃ db', mark_paid exLocked 1 "B" none = .ok db' ∧
        db'.orders = exLocked.orders ∧ db'.line_items = exLocked.line_items ∧
        ∃ q ∈ db'.participants, q.order_id = 1 ∧ q.user_id = "B" ∧
          q.paid = true ∧ q.paid_at = some exLocked.now ∧
          q.paid_to = some exOrderLocked.payer_id) := by
  refine ⟨?_, ?_, ?_⟩
  · exact C9_mark_paid_contract.1 initDB 1 "A" none (by rfl)
  · refine C9_mark_paid_contract.2.1 exDB1 1 "C" none exOrderOpen (by rfl) (by decide) ?_
    intro hc
    exact absurd hc (by decide)
  · exact C9_mark_paid_contract.2.2 exLocked 1 "B" exOrderLocked (by rfl) rfl (by unfold hasItem; decide)

/-- Claim C10 (implicit): `mark_paid` also works on a cancelled order for
a user with an existing frozen participant row: the recomputation it
triggers is a no-op, the call succeeds, and it mutates the row's `paid`,
`paid_at` and `paid_to` fields while leaving orders and line items
untouched. -/
theorem C10_mark_paid_on_cancelled (db : DB) (oid : Nat) (u : String) (pt : Option String)
    (o : Order) (p : Participant)
    (hl : lookupOrder db oid = some o) (hs : o.status = "cancelled")
    (hp : p ∈ db.participants) (hord : p.order_id = oid) (hu : p.user_id = u) :
    recalc_order_conn db oid = .ok db
    ∧ mark_paid db oid u pt = .ok (paidUpdate db oid u (pt.getD o.payer_id))
    ∧ ({ p with paid := true, paid_at := some db.now, paid_to := some (pt.getD o.payer_id) } : Participant)
        ∈ (paidUpdate db oid u (pt.getD o.payer_id)).participants
    ∧ (paidUpdate db oid u (pt.getD o.payer_id)).orders = db.orders
    ∧ (paidUpdate db oid u (pt.getD o.payer_id)).line_items = db.line_items := by
  have hr : recalc_order_conn db oid = .ok db := recalc_cancelled hl hs
  have hany := hasParticipant_any_iff.mpr ⟨p, hp, hord, hu⟩
  refine ⟨hr, ?_, mem_paidUpdate_of hp hord hu, rfl, rfl⟩
  rw [mark_paid_eq hr hl, if_pos hany]

/-- Witness for C10 on the concrete cancelled example state. -/
theorem C10_mark_paid_on_cancelled_witness :
    recalc_order_conn exCancelled 1 = .ok exCancelled
    ∧ mark_paid exCancelled 1 "B" none = .ok (paidUpdate exCancelled 1 "B" "A")
    ∧ ({ order_id := 1, user_id := "B", total_due := 50, paid := true, paid_at := some exCancelled.now, paid_to := some "A" } : Participant)
        ∈ (paidUpdate exCancelled 1 "B" "A").participants
    ∧ (paidUpdate exCancelled 1 "B" "A").orders = exCancelled.orders
    ∧ (paidUpdate exCancelled 1 "B" "A").line_items = exCancelled.line_items :=
  C10_mark_paid_on_cancelled exCancelled 1 "B" none exOrderCancelled
    { order_id := 1, user_id := "B", total_due := 50, paid := false, paid_at := none, paid_to := none }
    (by rfl) rfl (by decide) rfl rfl

theorem rowPresence_applyRecalc {db : DB} {oid : Nat} {o : Order}
    (hinv : ∀ oid2, oid2 ≠ oid → ∀ u, hasParticipant db oid2 u ↔ hasItem db oid2 u) :
    rowPresence (applyRecalc db oid o) := by
  intro oid2 u
  by_cases he : oid2 = oid
  · subst he
    rw [hasParticipant_applyRecalc_self]
    exact Iff.rfl
  · rw [hasParticipant_applyRecalc_other he]
    exact hinv oid2 he u

theorem rowPresence_recalc {db db' : DB} {oid : Nat}
    (h : recalc_order_conn db oid = .ok db') (hinv : rowPresence db) : rowPresence db' := by
  obtain ⟨o, hl, hcase⟩ := recalc_ok_inv h
  rcases hcase with ⟨hs, rfl⟩ | ⟨hs, rfl⟩
  · exact hinv
  · exact rowPresence_applyRecalc (fun oid2 hne u => hinv oid2 u)

theorem rowPresence_step {db db' : DB} (hstep : Step db db') (hinv : rowPresence db) :
    rowPresence db' := by
  cases hstep with
  | create vendor creator_id note payer_id => exact hinv
  | tick t => exact hinv
  | lock db2 oid actor h =>
    obtain ⟨o, hl, hs2, hc, rfl⟩ := lock_ok_inv h
    exact hinv
  | unlock db2 oid actor h =>
    obtain ⟨o, hl, hs2, hc, rfl⟩ := unlock_ok_inv h
    exact hinv
  | cancel db2 oid actor h =>
    obtain ⟨o, hl, hs2, hc, rfl⟩ := cancel_ok_inv h
    exact hinv
  | recalc db2 oid h => exact rowPresence_recalc h hinv
  | discount db2 oid pct h =>
    obtain ⟨hp, o, hl, hnl, hnc, rfl⟩ := set_discount_ok_inv h
    exact rowPresence_applyRecalc (fun oid2 hne u => hinv oid2 u)
  | adjust db2 oid a actor h =>
    obtain ⟨o, hl, hnc, hc, rfl⟩ := set_adjustment_ok_inv h
    exact rowPresence_applyRecalc (fun oid2 hne u => hinv oid2 u)
  | pay db2 oid u pt h =>
    obtain ⟨dbR, hr, o, hl, hany, rfl⟩ := mark_paid_ok_inv h
    have hinvR := rowPresence_recalc hr hinv
    intro oid2 v
    exact hasParticipant_paidUpdate.trans (hinvR oid2 v)
  | add db2 oid u name price qty note cb id h =>
    obtain ⟨hq, hp, hid, o, hl, hnl, hnc, rfl⟩ := add_item_ok_inv h
    apply rowPresence_applyRecalc
    intro oid2 hne v
    have hitem : hasItem (withItem db (newItem db oid u name price qty note (cb.getD u))) oid2 v
        ↔ hasItem db oid2 v := by
      unfold hasItem withItem
      constructor
      · rintro ⟨li, hli, hord, hu⟩
        rcases List.mem_append.mp hli with hm | hm
        · exact ⟨li, hm, hord, hu⟩
        · rw [List.mem_singleton.mp hm] at hord
          exact absurd hord.symm hne
      · rintro ⟨li, hli, hord, hu⟩
        exact ⟨li, List.mem_append.mpr (Or.inl hli), hord, hu⟩
    exact (hinv oid2 v).trans hitem.symm

/-- Claim C3: (i) in every state reachable from the empty store through
the public operations, a participant row exists for an (order, user) pair
iff that user owns at least one line item in that order; (ii) a
recomputation pass on a non-cancelled order re-establishes exactly this
presence for the order: after it, a row exists for a user iff the user
owns an item, so users owning items are upserted and users owning none
are purged. -/
theorem C3_row_presence :
    (∀ db, Reachable db → rowPresence db)
    ∧ (∀ (db : DB) (oid : Nat) (o : Order), lookupOrder db oid = some o →
        o.status ≠ "cancelled" → ∀ db', recalc_order_conn db oid = .ok db' →
        ∀ u, hasParticipant db' oid u ↔ hasItem db oid u) := by
  constructor
  · intro db hreach
    induction hreach with
    | refl =>
      intro oid u
      constructor <;> rintro ⟨x, hx, hrest⟩ <;> cases hx
    | tail hab hbc ih => exact rowPresence_step hbc ih
  · intro db oid o hl hs db' h u
    obtain ⟨o2, hl2, hcase⟩ := recalc_ok_inv h
    have ho2 : o2 = o := Option.some.inj (hl2.symm.trans hl)
    rw [ho2] at hcase
    rcases hcase with ⟨hc, rfl⟩ | ⟨hc, rfl⟩
    · exact absurd hc hs
    · exact hasParticipant_applyRecalc_self

/-- Witness for C3: the invariant at the initial state (reachable by the
empty derivation) and the presence equivalence after recalc on the
concrete example order. -/
theorem C3_row_presence_witness :
    rowPresence initDB
    ∧ (∀ u, hasParticipant exDB1 1 u ↔ hasItem exDB1 1 u) :=
  ⟨C3_row_presence.1 initDB Relation.ReflTransGen.refl,
   C3_row_presence.2 exDB1 1 exOrderOpen (by rfl) (by decide) exDB1 (by rfl)⟩

end AccountingBot
